import Mathlib

/-!
Verification of `generate_mock_jwts.py` (rust-cfzt-validator repository).

The script loads a JSON key store mapping identifiers to RSA private JWKs,
signs a fixed mock payload with each key using RS256 (via the jwcrypto
library), and prints one token line per key after an introductory line.

This file shallowly embeds the script and the parts of its runtime it relies
on: unpadded base64url (RFC 4648 section 5, as produced by jwcrypto's
`base64url_encode`), compact JSON serialization with sorted keys and ASCII
escaping (Python `json.dumps(obj, separators=(",", ":"), sort_keys=True)`,
which is jwcrypto's `json_encode`), JWK parsing checks, the JWS compact
serialization, and the driver loop with its lazy, fail-fast iteration.
The RS256 signature primitive itself (RSASSA-PKCS1-v1_5 with SHA-256) is a
deterministic function of the signing input and the key material; the
development is parametric in that function, since no claim depends on the
signature bytes themselves.
-/

set_option maxRecDepth 8192

namespace Cfzt

/-- Byte strings are lists of naturals; every byte handled by the program is
below 256, which the theorems carry as an explicit hypothesis. -/
abbrev Bytes := List Nat

/-- The base64url alphabet of RFC 4648 section 5, used by jwcrypto's
`base64url_encode` and `base64url_decode`. -/
def b64Alphabet : List Char :=
  "ABCDEFGHIJKLMNOPQRSTUVWXYZabcdefghijklmnopqrstuvwxyz0123456789-_".data

/-- The character encoding a 6-bit value (out-of-range values never occur). -/
def b64Char (v : Nat) : Char := b64Alphabet.getD v 'A'

/-- The 6-bit value of an alphabet character, `none` for foreign characters. -/
def b64DecChar (c : Char) : Option Nat := b64Alphabet.findIdx? (fun x => x == c)

/-- Unpadded base64url encoding of a byte list, grouping three bytes into four
characters with the usual 6-bit split; jwcrypto strips the `=` padding. -/
def b64EncodeBytes : Bytes → List Char
  | [] => []
  | [b0] => [b64Char (b0 / 4), b64Char (b0 % 4 * 16)]
  | [b0, b1] =>
      [b64Char (b0 / 4), b64Char (b0 % 4 * 16 + b1 / 16), b64Char (b1 % 16 * 4)]
  | b0 :: b1 :: b2 :: rest =>
      b64Char (b0 / 4) :: b64Char (b0 % 4 * 16 + b1 / 16) ::
      b64Char (b1 % 16 * 4 + b2 / 64) :: b64Char (b2 % 64) :: b64EncodeBytes rest

/-- Unpadded base64url decoding, the inverse grouping of `b64EncodeBytes`.
Like Python's `base64` module it does not reject nonzero trailing bits; a
length of 1 modulo 4 or a foreign character yields `none`. -/
def b64DecodeChars : List Char → Option Bytes
  | [] => some []
  | [c0, c1] =>
      (b64DecChar c0).bind fun v0 =>
      (b64DecChar c1).bind fun v1 =>
      some [v0 * 4 + v1 / 16]
  | [c0, c1, c2] =>
      (b64DecChar c0).bind fun v0 =>
      (b64DecChar c1).bind fun v1 =>
      (b64DecChar c2).bind fun v2 =>
      some [v0 * 4 + v1 / 16, v1 % 16 * 16 + v2 / 4]
  | c0 :: c1 :: c2 :: c3 :: rest =>
      (b64DecChar c0).bind fun v0 =>
      (b64DecChar c1).bind fun v1 =>
      (b64DecChar c2).bind fun v2 =>
      (b64DecChar c3).bind fun v3 =>
      (b64DecodeChars rest).bind fun tail =>
      some ((v0 * 4 + v1 / 16) :: (v1 % 16 * 16 + v2 / 4) :: (v2 % 4 * 64 + v3) :: tail)
  | _ => none

/-- String-level base64url encoding. -/
def base64urlEncode (bs : Bytes) : String := String.mk (b64EncodeBytes bs)

/-- String-level base64url decoding. -/
def base64urlDecode (s : String) : Option Bytes := b64DecodeChars s.data

theorem b64DecChar_b64Char : ∀ v, v < 64 → b64DecChar (b64Char v) = some v := by
  decide

theorem b64Char_mem_of_lt : ∀ v, v < 64 → b64Char v ∈ b64Alphabet := by
  decide

theorem b64Alphabet_length : b64Alphabet.length = 64 := by decide

theorem b64Char_mem (v : Nat) : b64Char v ∈ b64Alphabet := by
  rcases Nat.lt_or_ge v 64 with h | h
  · exact b64Char_mem_of_lt v h
  · unfold b64Char
    rw [List.getD_eq_default]
    · decide
    · rw [b64Alphabet_length]; omega

theorem b64EncodeBytes_mem :
    ∀ bs (c : Char), c ∈ b64EncodeBytes bs → c ∈ b64Alphabet := by
  intro bs
  induction bs using b64EncodeBytes.induct with
  | case1 =>
      intro c hc
      simp [b64EncodeBytes] at hc
  | case2 b0 =>
      intro c hc
      simp only [b64EncodeBytes, List.mem_cons, List.not_mem_nil, or_false] at hc
      rcases hc with h | h
      · exact h ▸ b64Char_mem _
      · exact h ▸ b64Char_mem _
  | case3 b0 b1 =>
      intro c hc
      simp only [b64EncodeBytes, List.mem_cons, List.not_mem_nil, or_false] at hc
      rcases hc with h | h | h
      · exact h ▸ b64Char_mem _
      · exact h ▸ b64Char_mem _
      · exact h ▸ b64Char_mem _
  | case4 b0 b1 b2 rest ih =>
      intro c hc
      simp only [b64EncodeBytes, List.mem_cons] at hc
      rcases hc with h | h | h | h | h
      · exact h ▸ b64Char_mem _
      · exact h ▸ b64Char_mem _
      · exact h ▸ b64Char_mem _
      · exact h ▸ b64Char_mem _
      · exact ih c h

/-- Round trip: decoding an encoded byte list recovers it exactly. -/
theorem b64_roundtrip : ∀ bs : Bytes, (∀ b ∈ bs, b < 256) →
    b64DecodeChars (b64EncodeBytes bs) = some bs := by
  intro bs
  induction bs using b64EncodeBytes.induct with
  | case1 => intro _; simp [b64EncodeBytes, b64DecodeChars]
  | case2 b0 =>
      intro h
      have hb0 : b0 < 256 := h b0 (by simp)
      simp only [b64EncodeBytes, b64DecodeChars]
      rw [b64DecChar_b64Char _ (by omega), b64DecChar_b64Char _ (by omega)]
      simp only [Option.some_bind]
      have : b0 / 4 * 4 + b0 % 4 * 16 / 16 = b0 := by omega
      rw [this]
  | case3 b0 b1 =>
      intro h
      have hb0 : b0 < 256 := h b0 (by simp)
      have hb1 : b1 < 256 := h b1 (by simp)
      simp only [b64EncodeBytes, b64DecodeChars]
      rw [b64DecChar_b64Char _ (by omega), b64DecChar_b64Char _ (by omega),
        b64DecChar_b64Char _ (by omega)]
      simp only [Option.some_bind]
      have e0 : b0 / 4 * 4 + (b0 % 4 * 16 + b1 / 16) / 16 = b0 := by omega
      have e1 : (b0 % 4 * 16 + b1 / 16) % 16 * 16 + b1 % 16 * 4 / 4 = b1 := by
        omega
      rw [e0, e1]
  | case4 b0 b1 b2 rest ih =>
      intro h
      have hb0 : b0 < 256 := h b0 (by simp)
      have hb1 : b1 < 256 := h b1 (by simp)
      have hb2 : b2 < 256 := h b2 (by simp)
      have hrest : ∀ b ∈ rest, b < 256 := fun b hb => h b (by simp [hb])
      simp only [b64EncodeBytes, b64DecodeChars]
      rw [b64DecChar_b64Char _ (by omega), b64DecChar_b64Char _ (by omega),
        b64DecChar_b64Char _ (by omega), b64DecChar_b64Char _ (by omega),
        ih hrest]
      simp only [Option.some_bind]
      have e0 : b0 / 4 * 4 + (b0 % 4 * 16 + b1 / 16) / 16 = b0 := by omega
      have e1 : (b0 % 4 * 16 + b1 / 16) % 16 * 16 + (b1 % 16 * 4 + b2 / 64) / 4
          = b1 := by omega
      have e2 : (b1 % 16 * 4 + b2 / 64) % 4 * 64 + b2 % 64 = b2 := by omega
      rw [e0, e1, e2]

/-- String-level round trip. -/
theorem base64url_roundtrip (bs : Bytes) (h : ∀ b ∈ bs, b < 256) :
    base64urlDecode (base64urlEncode bs) = some bs :=
  b64_roundtrip bs h

theorem data_mk (l : List Char) : (String.mk l).data = l := rfl

theorem data_append (s t : String) : (s ++ t).data = s.data ++ t.data := by
  cases s; cases t; rfl

/-- Lowercase hexadecimal digits, as produced by the `"%04x"` formatting used
by Python's `json.dumps` inside `\uXXXX` escapes. -/
def hexDigit (n : Nat) : Char := "0123456789abcdef".data.getD n '0'

/-- A `\uXXXX` escape for a 16-bit value (each digit taken modulo 16). -/
def uEscape (n : Nat) : List Char :=
  ['\\', 'u', hexDigit (n / 4096 % 16), hexDigit (n / 256 % 16),
   hexDigit (n / 16 % 16), hexDigit (n % 16)]

/-- Escaping of one character inside a JSON string literal, following Python's
`json.dumps` with its default `ensure_ascii=True`: the two-character escapes of
`ESCAPE_DCT`, `\uXXXX` escapes (surrogate pairs beyond the BMP) for every other
character outside printable ASCII `0x20..0x7e`, and the character itself
otherwise. -/
def escapeChar (c : Char) : List Char :=
  if c = '"' then ['\\', '"']
  else if c = '\\' then ['\\', '\\']
  else if c = '\u0008' then ['\\', 'b']
  else if c = '\u000c' then ['\\', 'f']
  else if c = '\n' then ['\\', 'n']
  else if c = '\r' then ['\\', 'r']
  else if c = '\t' then ['\\', 't']
  else if c.toNat < 32 ∨ 126 < c.toNat then
    if c.toNat < 65536 then uEscape c.toNat
    else uEscape (55296 + (c.toNat - 65536) / 1024) ++
         uEscape (56320 + (c.toNat - 65536) % 1024)
  else [c]

/-- The JSON string literal for `s`: quotes around the escaped characters. -/
def jsonStrChars (s : String) : List Char :=
  '"' :: (s.data.flatMap escapeChar ++ ['"'])

/-- Lexicographic code-point comparison of character lists, the order Python
uses on `str`. -/
def charsLe : List Char → List Char → Bool
  | [], _ => true
  | _ :: _, [] => false
  | a :: as, b :: bs =>
      if a.toNat < b.toNat then true
      else if b.toNat < a.toNat then false
      else charsLe as bs

/-- Key order for `sort_keys=True`. -/
def keyLe (a b : String) : Bool := charsLe a.data b.data

/-- One step of insertion sort on object members, ordered by key. -/
def insertMember (m : String × String) :
    List (String × String) → List (String × String)
  | [] => [m]
  | x :: xs => if keyLe m.1 x.1 then m :: x :: xs else x :: insertMember m xs

/-- Sorting of object members by key, modelling `sort_keys=True`. Python
compares `str` keys lexicographically by code point, as Lean's `String` order
does; the key sets met here are duplicate-free, so stability is irrelevant. -/
def sortMembers : List (String × String) → List (String × String)
  | [] => []
  | m :: ms => insertMember m (sortMembers ms)

/-- The characters of a member list rendered as `"k":"v"` joined by `,`. -/
def encodeMembers : List (String × String) → List Char
  | [] => []
  | [m] => jsonStrChars m.1 ++ (':' :: jsonStrChars m.2)
  | m :: rest =>
      jsonStrChars m.1 ++ (':' :: (jsonStrChars m.2 ++ (',' :: encodeMembers rest)))

/-- jwcrypto's `json_encode`, that is Python's
`json.dumps(obj, separators=(",", ":"), sort_keys=True)`, restricted to the
string-valued objects the script serializes (the JWT header and claims):
members sorted by key, compact separators, ASCII-escaped strings, braces
around the members. -/
def json_encode (ms : List (String × String)) : String :=
  String.mk ('\x7b' :: (encodeMembers (sortMembers ms) ++ ['\x7d']))

/-- UTF-8 bytes of a string whose characters are all ASCII; `json_encode`
output is ASCII (`json_encode_bytes_lt`), where UTF-8 coincides with the code
points. -/
def strBytes (s : String) : Bytes := s.data.map Char.toNat

theorem hexDigit_lt : ∀ n, n < 16 → (hexDigit n).toNat < 128 := by decide

theorem uEscape_ascii (n : Nat) : ∀ c ∈ uEscape n, c.toNat < 128 := by
  intro c hc
  simp only [uEscape, List.mem_cons, List.not_mem_nil, or_false] at hc
  rcases hc with h | h | h | h | h | h <;> subst h
  · decide
  · decide
  · exact hexDigit_lt _ (Nat.mod_lt _ (by omega))
  · exact hexDigit_lt _ (Nat.mod_lt _ (by omega))
  · exact hexDigit_lt _ (Nat.mod_lt _ (by omega))
  · exact hexDigit_lt _ (Nat.mod_lt _ (by omega))

theorem escapeChar_ascii (c : Char) : ∀ x ∈ escapeChar c, x.toNat < 128 := by
  intro x hx
  unfold escapeChar at hx
  split_ifs at hx with h1 h2 h3 h4 h5 h6 h7 h8 h9
  · simp only [List.mem_cons, List.not_mem_nil, or_false] at hx
    rcases hx with h | h <;> subst h <;> decide
  · simp only [List.mem_cons, List.not_mem_nil, or_false] at hx
    rcases hx with h | h <;> subst h <;> decide
  · simp only [List.mem_cons, List.not_mem_nil, or_false] at hx
    rcases hx with h | h <;> subst h <;> decide
  · simp only [List.mem_cons, List.not_mem_nil, or_false] at hx
    rcases hx with h | h <;> subst h <;> decide
  · simp only [List.mem_cons, List.not_mem_nil, or_false] at hx
    rcases hx with h | h <;> subst h <;> decide
  · simp only [List.mem_cons, List.not_mem_nil, or_false] at hx
    rcases hx with h | h <;> subst h <;> decide
  · simp only [List.mem_cons, List.not_mem_nil, or_false] at hx
    rcases hx with h | h <;> subst h <;> decide
  · exact uEscape_ascii _ x hx
  · rcases List.mem_append.mp hx with h | h
    · exact uEscape_ascii _ x h
    · exact uEscape_ascii _ x h
  · simp only [List.mem_cons, List.not_mem_nil, or_false] at hx
    subst hx
    push_neg at h8
    omega

theorem jsonStrChars_ascii (s : String) : ∀ c ∈ jsonStrChars s, c.toNat < 128 := by
  intro c hc
  simp only [jsonStrChars, List.mem_cons, List.mem_append, List.mem_flatMap,
    List.not_mem_nil, or_false] at hc
  rcases hc with h | ⟨a, _, h⟩ | h
  · subst h; decide
  · exact escapeChar_ascii a c h
  · subst h; decide

theorem encodeMembers_ascii :
    ∀ ms, ∀ c ∈ encodeMembers ms, c.toNat < 128 := by
  intro ms
  induction ms using encodeMembers.induct with
  | case1 => intro c hc; simp [encodeMembers] at hc
  | case2 m =>
      intro c hc
      simp only [encodeMembers, List.mem_append, List.mem_cons] at hc
      rcases hc with h | h | h
      · exact jsonStrChars_ascii _ c h
      · subst h; decide
      · exact jsonStrChars_ascii _ c h
  | case3 m rest hne ih =>
      intro c hc
      simp only [encodeMembers, List.mem_append, List.mem_cons] at hc
      rcases hc with h | h | h | h | h
      · exact jsonStrChars_ascii _ c h
      · subst h; decide
      · exact jsonStrChars_ascii _ c h
      · subst h; decide
      · exact ih c h

/-- Every byte of the serialized JSON is an ASCII code point, in particular
below 256. -/
theorem json_encode_bytes_lt (ms : List (String × String)) :
    ∀ b ∈ strBytes (json_encode ms), b < 256 := by
  intro b hb
  simp only [strBytes, List.mem_map] at hb
  obtain ⟨c, hc, rfl⟩ := hb
  have hc' : c ∈ '\x7b' :: (encodeMembers (sortMembers ms) ++ ['\x7d']) := hc
  simp only [List.mem_cons, List.mem_append, List.not_mem_nil, or_false] at hc'
  have : c.toNat < 128 := by
    rcases hc' with h | h | h
    · subst h; decide
    · exact encodeMembers_ascii _ c h
    · subst h; decide
  omega

/-- JSON values as produced by Python's `json.load`. Objects keep insertion
order; `json.load` collapses duplicate keys, so member lists reaching the
program have pairwise distinct keys. Numeric members are omitted: they do not
occur in JWK key stores (the script annotates the store as
`dict[str, dict[str, str]]`) and the program never serializes a loaded value. -/
inductive Json where
  | str (s : String)
  | bool (b : Bool)
  | null
  | arr (elems : List Json)
  | obj (members : List (String × Json))

/-- Python `dict` lookup on a parsed JSON object. -/
def lookupMember (k : String) (ms : List (String × Json)) : Option Json :=
  (ms.find? (fun m => m.1 == k)).map (fun m => m.2)

/-- The required public parameters jwcrypto's JWK import demands per key type
(its `JWKValuesRegistry`); `none` for a `kty` outside `JWKTypesRegistry`. -/
def requiredParams : String → Option (List String)
  | "RSA" => some ["n", "e"]
  | "EC" => some ["crv", "x", "y"]
  | "oct" => some ["k"]
  | "OKP" => some ["crv", "x"]
  | _ => none

/-- Failures of jwcrypto's JWK import: unknown or missing `kty`, a missing
required parameter, or a document that is not a JSON object at all. -/
inductive JwkError where
  | invalidType
  | missingParam
  | invalidValue

/-- An imported jwcrypto `JWK`: the parsed parameter object. -/
structure JWK where
  params : List (String × Json)

/-- jwcrypto's `jwk.JWK.from_json` composed with the script's `json.dumps`:
`JWK.from_json(json.dumps(value))` serializes the parsed JSON value and
immediately re-parses it, so it is modelled as acting on the value itself.
Import requires a JSON object carrying a known `kty` string and that type's
required public parameters; private parameters and RSA-ness are NOT checked
here. -/
def JWK.from_json (v : Json) : Except JwkError JWK :=
  match v with
  | Json.obj ms =>
    match lookupMember "kty" ms with
    | some (Json.str kty) =>
      match requiredParams kty with
      | some req =>
          if req.all (fun p => (lookupMember p ms).isSome) then Except.ok ⟨ms⟩
          else Except.error JwkError.missingParam
      | none => Except.error JwkError.invalidType
    | _ => Except.error JwkError.invalidType
  | _ => Except.error JwkError.invalidValue

/-- Whether the key can perform an RS256 signature: an RSA key carrying the
private exponent `d`. jwcrypto's `make_signed_token` raises otherwise (wrong
key type for the `alg`, or `get_op_key("sign")` on a public-only key). -/
def JWK.isRSAPrivate (k : JWK) : Bool :=
  match lookupMember "kty" k.params with
  | some (Json.str kty) => kty == "RSA" && (lookupMember "d" k.params).isSome
  | _ => false

/-- The RS256 signing primitive (RSASSA-PKCS1-v1_5 over SHA-256), a
deterministic, effect-free function from the signing input bytes and the key
parameters to the signature bytes. The development is parametric in it: every
theorem holds for any such function, and no claim depends on the signature's
value. -/
abbrev RS256Sig := Bytes → List (String × Json) → Bytes

/-- Failure of `make_signed_token`: the key cannot sign with RS256. -/
inductive SignError where
  | keyNotSuitable

/-- jwcrypto `jwt.JWT`: a header and a claims object, both string-valued maps
in this script. -/
structure JWT where
  header : List (String × String)
  claims : List (String × String)

/-- `JWT.make_signed_token` followed by compact serialization: serialize the
header and the claims with `json_encode`, base64url both, sign
`protected "." payload` with RS256, and return the three compact-serialization
segments. Fails when the key cannot sign (non-RSA or public-only). -/
def JWT.make_signed_token (rs : RS256Sig) (t : JWT) (key : JWK) :
    Except SignError (String × String × String) :=
  if key.isRSAPrivate then
    Except.ok
      (base64urlEncode (strBytes (json_encode t.header)),
       base64urlEncode (strBytes (json_encode t.claims)),
       base64urlEncode (rs
         (strBytes (base64urlEncode (strBytes (json_encode t.header)) ++ "." ++
                    base64urlEncode (strBytes (json_encode t.claims))))
         key.params))
  else Except.error SignError.keyNotSuitable

/-- `JWT.serialize()`: the compact JWS form, segments joined by dots. -/
def serializeCompact : String × String × String → String
  | (s1, s2, s3) => s1 ++ "." ++ s2 ++ "." ++ s3

/-- The script's `sign_mock_jwt`: build a token with header
`alg = "RS256", kid = key_id` and the fixed claims `foo = "bar", bin = "baz"`,
sign it with the key, and serialize. -/
def sign_mock_jwt (rs : RS256Sig) (key_id : String) (key : JWK) :
    Except SignError String :=
  let token : JWT :=
    { header := [("alg", "RS256"), ("kid", key_id)]
      claims := [("foo", "bar"), ("bin", "baz")] }
  (JWT.make_signed_token rs token key).map serializeCompact

/-- Ways the key-store file can fail before any entry is reached: a missing
file, invalid JSON, or a top-level value without `.items()` (not an object).
The script handles none of them; the exception propagates. -/
inductive LoadError where
  | fileNotFound
  | invalidJson
  | notAnObject

/-- The script's generator `load_private_keys`, run to completion: it walks the
parsed key-store object in insertion order and yields
`(identifier, JWK.from_json(json.dumps(value)))` pairs. An entry whose value
fails JWK import raises out of the generator: the pairs before it have been
yielded (first component) and the flag records whether the walk completed
without error (second component). Consumption is interleaved with the driver
below; this function records the generator's total production. -/
def load_private_keys : List (String × Json) → List (String × JWK) × Bool
  | [] => ([], true)
  | e :: rest =>
    match JWK.from_json e.2 with
    | Except.error _ => ([], false)
    | Except.ok k =>
        let r := load_private_keys rest
        ((e.1, k) :: r.1, r.2)

/-- Failures while handling one entry of the key store. -/
inductive EntryError where
  | jwkError (e : JwkError)
  | signError (e : SignError)

/-- One iteration of the driver loop: the generator parses the entry's value
into a JWK, `sign_mock_jwt` signs, and on success the driver prints the line
`" - {key_id}: {token}"`. -/
def processEntry (rs : RS256Sig) (e : String × Json) : Except EntryError String :=
  match JWK.from_json e.2 with
  | Except.error er => Except.error (EntryError.jwkError er)
  | Except.ok key =>
    match sign_mock_jwt rs e.1 key with
    | Except.error er => Except.error (EntryError.signError er)
    | Except.ok token => Except.ok (" - " ++ e.1 ++ ": " ++ token)

/-- The driver loop over the key-store entries: lines printed so far and
whether the loop finished without an exception. The first failing entry stops
the loop with nothing printed for it or for later entries. -/
def processEntries (rs : RS256Sig) : List (String × Json) → List String × Bool
  | [] => ([], true)
  | e :: rest =>
    match processEntry rs e with
    | Except.error _ => ([], false)
    | Except.ok line =>
        let r := processEntries rs rest
        (line :: r.1, r.2)

/-- The result of one program run: the arguments of the `print` calls made, in
order, and whether the process exits with status 0 (`true`) or dies with an
uncaught exception, exiting non-zero (`false`). -/
structure RunResult where
  printed : List String
  exitOk : Bool

/-- The introductory print payload: the f-string
`"Generating JWTs using keys discovered in {KEY_STORE_PATH}\n"` carries its
own trailing newline in addition to the one `print` appends. -/
def headerPayload (pathStr : String) : String :=
  "Generating JWTs using keys discovered in " ++ pathStr ++ "\n"

/-- The script's `main`, parametric in the RS256 primitive, the rendered key
store path, and the outcome of opening and parsing the key-store file. The
header is printed before the generator runs at all (the generator body, and
with it the file open, only executes at the loop's first `next()`), so the
header appears even when the file is missing. -/
def main (rs : RS256Sig) (pathStr : String)
    (store : Except LoadError (List (String × Json))) : RunResult :=
  match store with
  | Except.error _ => ⟨[headerPayload pathStr], false⟩
  | Except.ok entries =>
    let r := processEntries rs entries
    ⟨headerPayload pathStr :: r.1, r.2⟩

/-- The raw characters the run writes to stdout: each `print` payload followed
by the newline `print` appends. -/
def stdoutChars (r : RunResult) : List Char :=
  r.printed.flatMap (fun p => p.data ++ ['\n'])

/-- Splitting a character stream into newline-terminated lines; a trailing
fragment without a final newline counts as a line, and the accumulator holds
the current line reversed. -/
def splitLinesAux (acc : List Char) : List Char → List String
  | [] => if acc.isEmpty then [] else [String.mk acc.reverse]
  | c :: rest =>
      if c = '\n' then String.mk acc.reverse :: splitLinesAux [] rest
      else splitLinesAux (c :: acc) rest

/-- The lines of a run's standard output. -/
def emittedLines (r : RunResult) : List String :=
  splitLinesAux [] (stdoutChars r)

/-- Path model for the `KEY_STORE_PATH` constant. Paths are segment lists; an
absolute path's resolution ignores the working directory, a relative one is
resolved against it (`pathlib.Path.resolve` normalization of `..` and symlinks
is not modelled; the repository path contains neither). -/
def resolvePath (cwd : List String) (isAbsolute : Bool) (p : List String) :
    List String :=
  if isAbsolute then p else cwd ++ p

/-- `os.path.dirname`: drop the final segment. -/
def dirname (p : List String) : List String := p.dropLast

/-- `PROJECT_DIR = pathlib.Path(os.path.dirname(__file__)).resolve()`, where
`__file__` is the script path as invoked (absolute, or relative to the working
directory). -/
def PROJECT_DIR (cwd : List String) (isAbsolute : Bool) (file : List String) :
    List String :=
  resolvePath cwd isAbsolute (dirname file)

/-- `KEY_STORE_PATH = PROJECT_DIR / "test_data" / "mock_private_keys.json"`. -/
def KEY_STORE_PATH (cwd : List String) (isAbsolute : Bool)
    (file : List String) : List String :=
  PROJECT_DIR cwd isAbsolute file ++ ["test_data", "mock_private_keys.json"]

/-- Whether an exceptional computation succeeded (Python: no exception). -/
def ok? : Except ε α → Bool
  | Except.ok _ => true
  | Except.error _ => false

/-- The line printed for a successfully processed entry. -/
def entryLine (rs : RS256Sig) (e : String × Json) : String :=
  match processEntry rs e with
  | Except.ok line => line
  | Except.error _ => ""

/-- The token signed for an entry whose JWK imports and signs. -/
def tokenOf (rs : RS256Sig) (e : String × Json) : String :=
  match JWK.from_json e.2 with
  | Except.ok key =>
    match sign_mock_jwt rs e.1 key with
    | Except.ok t => t
    | Except.error _ => ""
  | Except.error _ => ""

/-- Well-formedness of a JWK document per RFC 7517 as jwcrypto enforces it: a
JSON object with a known `kty` and that type's required public parameters.
Stated independently of `JWK.from_json` in order to compare the loader's
acceptance with it; note it requires neither `kty = "RSA"` nor any private
parameter. -/
def wellFormedJWK (v : Json) : Bool :=
  match v with
  | Json.obj ms =>
    match lookupMember "kty" ms with
    | some (Json.str kty) =>
      match requiredParams kty with
      | some req => req.all (fun p => (lookupMember p ms).isSome)
      | none => false
    | _ => false
  | _ => false

/-- A vacuous signing primitive instantiating witnesses; the claim theorems
hold for every primitive. -/
def zeroSig : RS256Sig := fun _ _ => []

/-- A minimal RSA private JWK value (field contents abbreviated). -/
def goodRsaJson : Json :=
  Json.obj [("kty", Json.str "RSA"), ("n", Json.str "m0"),
            ("e", Json.str "AQAB"), ("d", Json.str "d0")]

/-- The JWK that `goodRsaJson` imports to. -/
def goodRsaKey : JWK :=
  ⟨[("kty", Json.str "RSA"), ("n", Json.str "m0"),
    ("e", Json.str "AQAB"), ("d", Json.str "d0")]⟩

/-- An RSA JWK lacking the private exponent `d`. -/
def rsaNoDJson : Json :=
  Json.obj [("kty", Json.str "RSA"), ("n", Json.str "m0"),
            ("e", Json.str "AQAB")]

/-- A public-only EC JWK. -/
def ecPubJson : Json :=
  Json.obj [("kty", Json.str "EC"), ("crv", Json.str "P-256"),
            ("x", Json.str "x0"), ("y", Json.str "y0")]

/-- A single-entry well-formed key store for concrete runs. -/
def demoStore : List (String × Json) := [("k1", goodRsaJson)]

/-- A key store whose second entry lacks the private exponent. -/
def demoFailStore : List (String × Json) :=
  [("k1", goodRsaJson), ("nopriv", rsaNoDJson), ("k3", goodRsaJson)]

/-- The token the demo entry signs to under the vacuous primitive. -/
def demoToken : String :=
  match sign_mock_jwt zeroSig "k1" goodRsaKey with
  | Except.ok t => t
  | Except.error _ => ""

theorem PROJECT_DIR_eq_dropLast (cwd : List String) (isAbsolute : Bool)
    (file : List String) (hne : file ≠ []) :
    PROJECT_DIR cwd isAbsolute file = (resolvePath cwd isAbsolute file).dropLast := by
  unfold PROJECT_DIR resolvePath dirname
  cases isAbsolute with
  | false =>
      simp only [Bool.false_eq_true, if_false]
      rw [List.dropLast_append_of_ne_nil _ hne]
  | true => simp

/-- C10: `KEY_STORE_PATH` is resolved from the directory containing the script
file itself, not from the process's working directory: any two invocations
denoting the same script file on disk, under any working directories, resolve
the constant to the same path `<script dir>/test_data/mock_private_keys.json`. -/
theorem KEY_STORE_PATH_cwd_independent
    (scriptPath cwd1 cwd2 : List String) (abs1 abs2 : Bool)
    (file1 file2 : List String)
    (hne1 : file1 ≠ []) (hne2 : file2 ≠ [])
    (h1 : resolvePath cwd1 abs1 file1 = scriptPath)
    (h2 : resolvePath cwd2 abs2 file2 = scriptPath) :
    KEY_STORE_PATH cwd1 abs1 file1 =
      scriptPath.dropLast ++ ["test_data", "mock_private_keys.json"] ∧
    KEY_STORE_PATH cwd1 abs1 file1 = KEY_STORE_PATH cwd2 abs2 file2 := by
  have e1 : KEY_STORE_PATH cwd1 abs1 file1 =
      scriptPath.dropLast ++ ["test_data", "mock_private_keys.json"] := by
    unfold KEY_STORE_PATH
    rw [PROJECT_DIR_eq_dropLast cwd1 abs1 file1 hne1, h1]
  have e2 : KEY_STORE_PATH cwd2 abs2 file2 =
      scriptPath.dropLast ++ ["test_data", "mock_private_keys.json"] := by
    unfold KEY_STORE_PATH
    rw [PROJECT_DIR_eq_dropLast cwd2 abs2 file2 hne2, h2]
  exact ⟨e1, by rw [e1, e2]⟩

theorem KEY_STORE_PATH_cwd_independent_witness :
    ((["repo", "generate_mock_jwts.py"] : List String) ≠ [] ∧
     (["", "home", "repo", "generate_mock_jwts.py"] : List String) ≠ [] ∧
     resolvePath ["", "home"] false ["repo", "generate_mock_jwts.py"] =
       ["", "home", "repo", "generate_mock_jwts.py"] ∧
     resolvePath ["", "tmp"] true ["", "home", "repo", "generate_mock_jwts.py"] =
       ["", "home", "repo", "generate_mock_jwts.py"]) ∧
    (KEY_STORE_PATH ["", "home"] false ["repo", "generate_mock_jwts.py"] =
      (["", "home", "repo", "generate_mock_jwts.py"] : List String).dropLast ++
        ["test_data", "mock_private_keys.json"] ∧
     KEY_STORE_PATH ["", "home"] false ["repo", "generate_mock_jwts.py"] =
       KEY_STORE_PATH ["", "tmp"] true ["", "home", "repo", "generate_mock_jwts.py"]) :=
  ⟨⟨by decide, by decide, by decide, by decide⟩,
   KEY_STORE_PATH_cwd_independent
     ["", "home", "repo", "generate_mock_jwts.py"] ["", "home"] ["", "tmp"]
     false true ["repo", "generate_mock_jwts.py"]
     ["", "home", "repo", "generate_mock_jwts.py"]
     (by decide) (by decide) (by decide) (by decide)⟩

/-- C6: with a missing key-store file (or any failure to open and parse it)
the run exits non-zero having printed only the introductory line: no token
line is emitted. -/
theorem main_missing_file (rs : RS256Sig) (pathStr : String) (e : LoadError) :
    (main rs pathStr (Except.error e)).exitOk = false ∧
    (main rs pathStr (Except.error e)).printed = [headerPayload pathStr] :=
  ⟨rfl, rfl⟩

/-- C9: the introductory line naming the key-store path is the first print of
every run, whatever the outcome of opening the key-store file. The generator
body, and with it the file open, only executes at the loop's first `next()`,
after the header print; so even a missing or unreadable file sees the header
emitted before the failure, as the error outcome of the second conjunct
shows. -/
theorem header_printed_first (rs : RS256Sig) (pathStr : String)
    (store : Except LoadError (List (String × Json))) :
    (main rs pathStr store).printed.head? = some (headerPayload pathStr) ∧
    (main rs pathStr (Except.error LoadError.fileNotFound)).printed =
      [headerPayload pathStr] := by
  cases store <;> exact ⟨rfl, rfl⟩

/-- C7: `sign_mock_jwt` is a pure, deterministic function of its inputs: two
invocations with the same identifier and the same key material return the same
serialized token. In this embedding it is a function and performs no effect;
that is faithful because the RS256 primitive the source uses,
RSASSA-PKCS1-v1_5 with SHA-256, is itself deterministic in the key material
and signing input. -/
theorem sign_mock_jwt_deterministic (rs : RS256Sig) (key_id : String)
    (k1 k2 : JWK) (h : k1.params = k2.params) :
    sign_mock_jwt rs key_id k1 = sign_mock_jwt rs key_id k2 := by
  cases k1; cases k2; cases h; rfl

theorem sign_mock_jwt_deterministic_witness :
    goodRsaKey.params = goodRsaKey.params ∧
    sign_mock_jwt zeroSig "k1" goodRsaKey = sign_mock_jwt zeroSig "k1" goodRsaKey :=
  ⟨rfl, sign_mock_jwt_deterministic zeroSig "k1" goodRsaKey goodRsaKey rfl⟩

/-- C5: on a key store all of whose values import as JWKs, `load_private_keys`
yields exactly one `(identifier, key)` pair per top-level entry, in the
document's insertion order, completing without error. The sequence is the
finite production of a single-pass generator; its lazy interleaving with the
consumer is what `main` captures. -/
theorem load_private_keys_spec (entries : List (String × Json))
    (h : ∀ e ∈ entries, ok? (JWK.from_json e.2) = true) :
    (load_private_keys entries).1.length = entries.length ∧
    (load_private_keys entries).1.map Prod.fst = entries.map Prod.fst ∧
    (load_private_keys entries).2 = true := by
  induction entries with
  | nil => exact ⟨rfl, rfl, rfl⟩
  | cons e rest ih =>
    have he := h e (by simp)
    obtain ⟨k, hk⟩ : ∃ k, JWK.from_json e.2 = Except.ok k := by
      cases hj : JWK.from_json e.2 with
      | error er => rw [hj] at he; simp [ok?] at he
      | ok k => exact ⟨k, rfl⟩
    obtain ⟨ihl, ihm, ihb⟩ := ih (fun x hx => h x (by simp [hx]))
    refine ⟨?_, ?_, ?_⟩ <;>
      simp only [load_private_keys, hk, List.length_cons, List.map_cons]
    · simp [ihl]
    · simp [ihm]
    · exact ihb

theorem load_private_keys_spec_witness :
    (∀ e ∈ demoStore, ok? (JWK.from_json e.2) = true) ∧
    ((load_private_keys demoStore).1.length = demoStore.length ∧
     (load_private_keys demoStore).1.map Prod.fst = demoStore.map Prod.fst ∧
     (load_private_keys demoStore).2 = true) :=
  ⟨by decide, load_private_keys_spec demoStore (by decide)⟩

/-- C8: the loader imports every well-formed JWK whatever its key type,
including non-RSA and public-only keys; whether the key is an RSA private key
is checked only by `make_signed_token` inside `sign_mock_jwt`, whose success is
exactly `isRSAPrivate`. -/
theorem loader_defers_private_checks (v : Json) (h : wellFormedJWK v = true) :
    ∃ k : JWK, JWK.from_json v = Except.ok k ∧
      ∀ (rs : RS256Sig) (key_id : String),
        ok? (sign_mock_jwt rs key_id k) = k.isRSAPrivate := by
  cases v with
  | str s => simp [wellFormedJWK] at h
  | bool b => simp [wellFormedJWK] at h
  | null => simp [wellFormedJWK] at h
  | arr xs => simp [wellFormedJWK] at h
  | obj ms =>
    simp only [wellFormedJWK] at h
    cases hk : lookupMember "kty" ms with
    | none => rw [hk] at h; simp at h
    | some j =>
      rw [hk] at h
      cases j with
      | bool b => simp at h
      | null => simp at h
      | arr xs => simp at h
      | obj ms' => simp at h
      | str kty =>
        have h' : (match requiredParams kty with
            | some req => req.all (fun p => (lookupMember p ms).isSome)
            | none => false) = true := h
        cases hr : requiredParams kty with
        | none => rw [hr] at h'; simp at h'
        | some req =>
          rw [hr] at h'
          have hall : req.all (fun p => (lookupMember p ms).isSome) = true := h'
          refine ⟨⟨ms⟩, ?_, ?_⟩
          · simp only [JWK.from_json, hk, hr, hall, if_true]
          · intro rs key_id
            cases hp : JWK.isRSAPrivate ⟨ms⟩ <;>
              simp [sign_mock_jwt, JWT.make_signed_token, hp, ok?, Except.map]

theorem loader_defers_private_checks_witness :
    wellFormedJWK ecPubJson = true ∧
    (∃ k : JWK, JWK.from_json ecPubJson = Except.ok k ∧
      ∀ (rs : RS256Sig) (key_id : String),
        ok? (sign_mock_jwt rs key_id k) = k.isRSAPrivate) :=
  ⟨by decide, loader_defers_private_checks ecPubJson (by decide)⟩

theorem processEntries_fail_fast (rs : RS256Sig) :
    ∀ (entries : List (String × Json)) (k : Nat), k < entries.length →
    ok? (processEntry rs (entries.getD k ("", Json.null))) = false →
    (∀ i, i < k → ok? (processEntry rs (entries.getD i ("", Json.null))) = true) →
    processEntries rs entries = ((entries.take k).map (entryLine rs), false) := by
  intro entries
  induction entries with
  | nil => intro k hk _ _; simp at hk
  | cons e rest ih =>
    intro k hk hfail hok
    cases k with
    | zero =>
      simp only [List.getD_cons_zero] at hfail
      simp only [processEntries, List.take_zero, List.map_nil]
      cases hpe : processEntry rs e with
      | ok line => rw [hpe] at hfail; simp [ok?] at hfail
      | error er => rfl
    | succ k' =>
      have he : ok? (processEntry rs e) = true := by
        have h0 := hok 0 (Nat.succ_pos _)
        simpa using h0
      cases hpe : processEntry rs e with
      | error er => rw [hpe] at he; simp [ok?] at he
      | ok line =>
        simp only [processEntries]
        rw [hpe]
        have hfail' :
            ok? (processEntry rs (rest.getD k' ("", Json.null))) = false := by
          simpa using hfail
        have hok' : ∀ i, i < k' →
            ok? (processEntry rs (rest.getD i ("", Json.null))) = true :=
          fun i hi => by simpa using hok (i + 1) (by omega)
        rw [ih k' (by simpa using hk) hfail' hok']
        simp [List.take_succ_cons, entryLine, hpe]

/-- C2: when the entry at 0-based position `k` of the key store fails — its
JWK fails to import (for instance an RSA key lacking the private exponent) or
fails to sign — while all earlier entries succeed, the run prints the header
and exactly the token lines of the first `k` entries and exits non-zero:
nothing is printed for the failing entry nor for any later one. -/
theorem main_fail_fast (rs : RS256Sig) (pathStr : String)
    (entries : List (String × Json)) (k : Nat)
    (hk : k < entries.length)
    (hfail : ok? (processEntry rs (entries.getD k ("", Json.null))) = false)
    (hok : ∀ i, i < k →
      ok? (processEntry rs (entries.getD i ("", Json.null))) = true) :
    (main rs pathStr (Except.ok entries)).printed =
      headerPayload pathStr :: (entries.take k).map (entryLine rs) ∧
    (main rs pathStr (Except.ok entries)).exitOk = false := by
  have hpe := processEntries_fail_fast rs entries k hk hfail hok
  constructor <;> simp [main, hpe]

theorem main_fail_fast_witness :
    (1 < demoFailStore.length ∧
     ok? (processEntry zeroSig (demoFailStore.getD 1 ("", Json.null))) = false ∧
     (∀ i, i < 1 →
       ok? (processEntry zeroSig (demoFailStore.getD i ("", Json.null))) = true)) ∧
    ((main zeroSig "p" (Except.ok demoFailStore)).printed =
      headerPayload "p" :: (demoFailStore.take 1).map (entryLine zeroSig) ∧
     (main zeroSig "p" (Except.ok demoFailStore)).exitOk = false) :=
  ⟨⟨by decide, by decide, by decide⟩,
   main_fail_fast zeroSig "p" demoFailStore 1 (by decide) (by decide) (by decide)⟩

theorem dot_not_mem_b64 (bs : Bytes) : '.' ∉ (base64urlEncode bs).data := by
  intro hm
  have := b64EncodeBytes_mem bs '.' hm
  have hno : '.' ∉ b64Alphabet := by decide
  exact hno this

/-- C1: for every identifier and every RSA private key, `sign_mock_jwt`
returns the compact JWS serialization: three dot-free base64url segments
joined by `"."`; decoding the first segment yields exactly the bytes of the
JSON header with `alg = "RS256"` and `kid` the identifier, decoding the second
yields exactly the bytes of the JSON payload `foo = "bar", bin = "baz"`
(members serialized with sorted keys), and the first two segments are the same
for every signing key: the payload does not depend on the key. -/
theorem sign_mock_jwt_spec (rs : RS256Sig) (key_id : String) (key : JWK)
    (h : key.isRSAPrivate = true) :
    ∃ s1 s2 s3 : String,
      sign_mock_jwt rs key_id key = Except.ok (s1 ++ "." ++ s2 ++ "." ++ s3) ∧
      ('.' ∉ s1.data ∧ '.' ∉ s2.data ∧ '.' ∉ s3.data) ∧
      base64urlDecode s1 =
        some (strBytes (json_encode [("alg", "RS256"), ("kid", key_id)])) ∧
      base64urlDecode s2 =
        some (strBytes (json_encode [("foo", "bar"), ("bin", "baz")])) ∧
      ∀ key' : JWK, key'.isRSAPrivate = true →
        ∃ t3 : String,
          sign_mock_jwt rs key_id key' =
            Except.ok (s1 ++ "." ++ s2 ++ "." ++ t3) := by
  refine
    ⟨base64urlEncode (strBytes (json_encode [("alg", "RS256"), ("kid", key_id)])),
     base64urlEncode (strBytes (json_encode [("foo", "bar"), ("bin", "baz")])),
     base64urlEncode (rs
       (strBytes
         (base64urlEncode (strBytes (json_encode [("alg", "RS256"), ("kid", key_id)])) ++
          "." ++
          base64urlEncode (strBytes (json_encode [("foo", "bar"), ("bin", "baz")]))))
       key.params),
     ?_, ⟨dot_not_mem_b64 _, dot_not_mem_b64 _, dot_not_mem_b64 _⟩, ?_, ?_, ?_⟩
  · simp [sign_mock_jwt, JWT.make_signed_token, h, Except.map, serializeCompact]
  · exact base64url_roundtrip _ (json_encode_bytes_lt _)
  · exact base64url_roundtrip _ (json_encode_bytes_lt _)
  · intro key' h'
    refine
      ⟨base64urlEncode (rs
         (strBytes
           (base64urlEncode (strBytes (json_encode [("alg", "RS256"), ("kid", key_id)])) ++
            "." ++
            base64urlEncode (strBytes (json_encode [("foo", "bar"), ("bin", "baz")]))))
         key'.params), ?_⟩
    simp [sign_mock_jwt, JWT.make_signed_token, h', Except.map, serializeCompact]

theorem sign_mock_jwt_spec_witness :
    goodRsaKey.isRSAPrivate = true ∧
    (∃ s1 s2 s3 : String,
      sign_mock_jwt zeroSig "k1" goodRsaKey =
        Except.ok (s1 ++ "." ++ s2 ++ "." ++ s3) ∧
      ('.' ∉ s1.data ∧ '.' ∉ s2.data ∧ '.' ∉ s3.data) ∧
      base64urlDecode s1 =
        some (strBytes (json_encode [("alg", "RS256"), ("kid", "k1")])) ∧
      base64urlDecode s2 =
        some (strBytes (json_encode [("foo", "bar"), ("bin", "baz")])) ∧
      ∀ key' : JWK, key'.isRSAPrivate = true →
        ∃ t3 : String,
          sign_mock_jwt zeroSig "k1" key' =
            Except.ok (s1 ++ "." ++ s2 ++ "." ++ t3)) :=
  ⟨by decide, sign_mock_jwt_spec zeroSig "k1" goodRsaKey (by decide)⟩

theorem processEntry_ok_line (rs : RS256Sig) (e : String × Json) (line : String)
    (hpe : processEntry rs e = Except.ok line) :
    line = " - " ++ e.1 ++ ": " ++ tokenOf rs e := by
  unfold processEntry at hpe
  unfold tokenOf
  cases hj : JWK.from_json e.2 with
  | error er => rw [hj] at hpe; exact absurd hpe (by simp)
  | ok key =>
    rw [hj] at hpe
    have hpe' : (match sign_mock_jwt rs e.1 key with
        | Except.error er => Except.error (EntryError.signError er)
        | Except.ok token => Except.ok (" - " ++ e.1 ++ ": " ++ token))
        = Except.ok line := hpe
    show line = " - " ++ e.1 ++ ": " ++
      (match sign_mock_jwt rs e.1 key with
        | Except.ok t => t
        | Except.error _ => "")
    cases hs : sign_mock_jwt rs e.1 key with
    | error er => rw [hs] at hpe'; exact absurd hpe' (by simp)
    | ok t =>
      rw [hs] at hpe'
      injection hpe' with hpe'
      exact hpe'.symm

theorem processEntries_all_ok (rs : RS256Sig) :
    ∀ entries : List (String × Json),
    (∀ e ∈ entries, ok? (processEntry rs e) = true) →
    processEntries rs entries =
      (entries.map (fun e => " - " ++ e.1 ++ ": " ++ tokenOf rs e), true) := by
  intro entries
  induction entries with
  | nil => intro _; rfl
  | cons e rest ih =>
    intro h
    have he := h e (by simp)
    cases hpe : processEntry rs e with
    | error er => rw [hpe] at he; simp [ok?] at he
    | ok line =>
      simp only [processEntries, List.map_cons]
      rw [hpe, ih (fun x hx => h x (by simp [hx])),
        processEntry_ok_line rs e line hpe]

/-- C4 (counterexample): on the single-entry demo store the driver's token
line is `" - k1: " ++ demoToken`, which is not of the form
`"k1: " ++ token` for any token: the source's f-string carries a literal
`" - "` prefix that the claim's format omits. -/
theorem main_print_form_cex :
    (main zeroSig "p" (Except.ok demoStore)).printed.getD 1 "" =
      " - k1: " ++ demoToken ∧
    ¬ ∃ t : String, " - k1: " ++ demoToken = "k1: " ++ t := by
  constructor
  · rfl
  · rintro ⟨t, ht⟩
    have h2 := congrArg String.data ht
    rw [data_append, data_append] at h2
    have hL : (" - k1: " : String).data = ' ' :: "- k1: ".data := rfl
    have hR : ("k1: " : String).data = 'k' :: "1: ".data := rfl
    rw [hL, hR] at h2
    simp only [List.cons_append, List.cons.injEq] at h2
    exact absurd h2.1 (by decide)

/-- C4 (amended): for every loaded `(identifier, key)` pair the driver prints
exactly one line, of the form `" - {identifier}: {token}"` — with the literal
`" - "` prefix the source carries — one line per key, in load order, after the
header. -/
theorem main_one_line_per_key (rs : RS256Sig) (pathStr : String)
    (entries : List (String × Json))
    (h : ∀ e ∈ entries, ok? (processEntry rs e) = true) :
    (main rs pathStr (Except.ok entries)).printed =
      headerPayload pathStr ::
        entries.map (fun e => " - " ++ e.1 ++ ": " ++ tokenOf rs e) := by
  simp [main, processEntries_all_ok rs entries h]

theorem main_one_line_per_key_witness :
    (∀ e ∈ demoStore, ok? (processEntry zeroSig e) = true) ∧
    (main zeroSig "p" (Except.ok demoStore)).printed =
      headerPayload "p" ::
        demoStore.map (fun e => " - " ++ e.1 ++ ": " ++ tokenOf zeroSig e) :=
  ⟨by decide, main_one_line_per_key zeroSig "p" demoStore (by decide)⟩

theorem mk_data (s : String) : String.mk s.data = s := by cases s; rfl

/-- Sanity check of the serialization model: the header and payload segments
computed for `kid = "k1"` coincide with the segments jwcrypto emits (keys
sorted, compact separators, unpadded base64url). -/
theorem demo_segments_concrete :
    base64urlEncode (strBytes (json_encode [("alg", "RS256"), ("kid", "k1")])) =
      "eyJhbGciOiJSUzI1NiIsImtpZCI6ImsxIn0" ∧
    base64urlEncode (strBytes (json_encode [("foo", "bar"), ("bin", "baz")])) =
      "eyJiaW4iOiJiYXoiLCJmb28iOiJiYXIifQ" := by
  exact ⟨by decide, by decide⟩

theorem splitLinesAux_append (a : List Char) (hn : '\n' ∉ a) :
    ∀ acc rest : List Char,
    splitLinesAux acc (a ++ '\n' :: rest) =
      String.mk (acc.reverse ++ a) :: splitLinesAux [] rest := by
  induction a with
  | nil => intro acc rest; simp [splitLinesAux]
  | cons c a' ih =>
    intro acc rest
    have hc : ¬ c = '\n' := fun h => hn (by simp [h])
    have hn' : '\n' ∉ a' := fun h => hn (by simp [h])
    simp only [List.cons_append, splitLinesAux, List.append_eq]
    rw [if_neg hc, ih hn' (c :: acc) rest]
    simp

theorem splitLines_printed :
    ∀ ps : List String, (∀ p ∈ ps, '\n' ∉ p.data) →
    splitLinesAux [] (ps.flatMap (fun p => p.data ++ ['\n'])) = ps := by
  intro ps
  induction ps with
  | nil => intro _; rfl
  | cons p ps' ih =>
    intro h
    simp only [List.flatMap_cons]
    have hsh : p.data ++ ['\n'] ++ ps'.flatMap (fun q => q.data ++ ['\n']) =
        p.data ++ '\n' :: ps'.flatMap (fun q => q.data ++ ['\n']) := by
      simp [List.append_assoc]
    rw [hsh, splitLinesAux_append p.data (h p (by simp)) [] _]
    rw [ih (fun x hx => h x (by simp [hx]))]
    simp [mk_data]

theorem nl_not_mem_b64 (bs : Bytes) : '\n' ∉ (base64urlEncode bs).data := by
  intro hm
  have := b64EncodeBytes_mem bs '\n' hm
  have hno : '\n' ∉ b64Alphabet := by decide
  exact hno this

theorem sign_mock_jwt_ok_no_newline (rs : RS256Sig) (key_id : String)
    (key : JWK) (t : String) (hs : sign_mock_jwt rs key_id key = Except.ok t) :
    '\n' ∉ t.data := by
  unfold sign_mock_jwt JWT.make_signed_token at hs
  cases hp : key.isRSAPrivate with
  | false => rw [hp] at hs; simp [Except.map] at hs
  | true =>
    rw [hp] at hs
    simp only [if_true, Except.map, serializeCompact] at hs
    injection hs with hs
    rw [← hs]
    intro hm
    rw [data_append, data_append, data_append, data_append] at hm
    simp only [List.mem_append] at hm
    rcases hm with ((((h | h) | h) | h) | h)
    · exact nl_not_mem_b64 _ h
    · exact absurd h (by decide)
    · exact nl_not_mem_b64 _ h
    · exact absurd h (by decide)
    · exact nl_not_mem_b64 _ h

theorem tokenOf_no_newline (rs : RS256Sig) (e : String × Json) :
    '\n' ∉ (tokenOf rs e).data := by
  unfold tokenOf
  cases hj : JWK.from_json e.2 with
  | error er =>
      show '\n' ∉ ("" : String).data
      decide
  | ok key =>
    show '\n' ∉ (match sign_mock_jwt rs e.1 key with
      | Except.ok t => t
      | Except.error _ => "").data
    cases hs : sign_mock_jwt rs e.1 key with
    | error er =>
        show '\n' ∉ ("" : String).data
        decide
    | ok t =>
        show '\n' ∉ t.data
        exact sign_mock_jwt_ok_no_newline rs e.1 key t hs

theorem tokenLine_no_newline (rs : RS256Sig) (e : String × Json)
    (hid : '\n' ∉ e.1.data) :
    '\n' ∉ (" - " ++ e.1 ++ ": " ++ tokenOf rs e).data := by
  intro hm
  rw [data_append, data_append, data_append] at hm
  simp only [List.mem_append] at hm
  rcases hm with (((h | h) | h) | h)
  · exact absurd h (by decide)
  · exact hid h
  · exact absurd h (by decide)
  · exact tokenOf_no_newline rs e h

/-- C3 (counterexample): on a well-formed single-entry key store (its entry
processes successfully, first conjunct) the program writes THREE lines to
standard output — the header, a blank line, and one token line — not the
`1 + 1` lines the claim counts: the header f-string ends in an explicit
newline on top of the one `print` appends. -/
theorem main_line_count_cex :
    ok? (processEntry zeroSig ("k1", goodRsaJson)) = true ∧
    (emittedLines
      (main zeroSig "mock_private_keys.json" (Except.ok demoStore))).length = 3 ∧
    (emittedLines
      (main zeroSig "mock_private_keys.json" (Except.ok demoStore))).getD 1 "x" =
      "" ∧
    (3 : Nat) ≠ 1 + 1 := by
  refine ⟨by decide, by rfl, by rfl, by decide⟩

/-- C3 (amended): a well-formed key store with `N` entries produces standard
output of exactly `N` token lines plus one header line plus one blank line
separating them (the header print's payload carries its own trailing newline);
the process exits 0. The rendered path and the identifiers are assumed
newline-free — otherwise a line count is ill-defined — which holds for the
repository's key store. -/
theorem main_line_count (rs : RS256Sig) (pathStr : String)
    (entries : List (String × Json))
    (hpath : '\n' ∉ pathStr.data)
    (hids : ∀ e ∈ entries, '\n' ∉ (Prod.fst e).data)
    (h : ∀ e ∈ entries, ok? (processEntry rs e) = true) :
    emittedLines (main rs pathStr (Except.ok entries)) =
      ("Generating JWTs using keys discovered in " ++ pathStr) :: "" ::
        entries.map (fun e => " - " ++ e.1 ++ ": " ++ tokenOf rs e) ∧
    (emittedLines (main rs pathStr (Except.ok entries))).length =
      entries.length + 2 ∧
    (main rs pathStr (Except.ok entries)).exitOk = true := by
  have hrun := processEntries_all_ok rs entries h
  have hprinted : (main rs pathStr (Except.ok entries)).printed =
      headerPayload pathStr ::
        entries.map (fun e => " - " ++ e.1 ++ ": " ++ tokenOf rs e) := by
    simp [main, hrun]
  have hbase :
      '\n' ∉ ("Generating JWTs using keys discovered in " ++ pathStr).data := by
    intro hm
    rw [data_append] at hm
    rcases List.mem_append.mp hm with hh | hh
    · exact absurd hh (by decide)
    · exact hpath hh
  have hlines :
      ∀ p ∈ entries.map (fun e => " - " ++ e.1 ++ ": " ++ tokenOf rs e),
      '\n' ∉ p.data := by
    intro p hp
    obtain ⟨e, he, rfl⟩ := List.mem_map.mp hp
    exact tokenLine_no_newline rs e (hids e he)
  have hemit : emittedLines (main rs pathStr (Except.ok entries)) =
      ("Generating JWTs using keys discovered in " ++ pathStr) :: "" ::
        entries.map (fun e => " - " ++ e.1 ++ ": " ++ tokenOf rs e) := by
    unfold emittedLines stdoutChars
    rw [hprinted, List.flatMap_cons]
    have hhp : (headerPayload pathStr).data =
        ("Generating JWTs using keys discovered in " ++ pathStr).data ++
          ['\n'] := by
      unfold headerPayload
      rw [data_append]
    rw [hhp]
    have hsh :
        (("Generating JWTs using keys discovered in " ++ pathStr).data ++
            ['\n']) ++ ['\n'] ++
          (entries.map (fun e => " - " ++ e.1 ++ ": " ++ tokenOf rs e)).flatMap
            (fun q => q.data ++ ['\n']) =
        ("Generating JWTs using keys discovered in " ++ pathStr).data ++
          '\n' :: '\n' ::
            (entries.map (fun e => " - " ++ e.1 ++ ": " ++ tokenOf rs e)).flatMap
              (fun q => q.data ++ ['\n']) := by
      simp [List.append_assoc]
    rw [hsh, splitLinesAux_append _ hbase [] _]
    simp only [List.reverse_nil, List.nil_append, mk_data]
    have hstep :
        splitLinesAux []
          ('\n' ::
            (entries.map (fun e => " - " ++ e.1 ++ ": " ++ tokenOf rs e)).flatMap
              (fun q => q.data ++ ['\n'])) =
        "" :: splitLinesAux []
          ((entries.map (fun e => " - " ++ e.1 ++ ": " ++ tokenOf rs e)).flatMap
            (fun q => q.data ++ ['\n'])) := by
      simp [splitLinesAux]
    rw [hstep, splitLines_printed _ hlines]
  refine ⟨hemit, ?_, ?_⟩
  · rw [hemit]; simp
  · simp [main, hrun]

theorem main_line_count_witness :
    ('\n' ∉ ("p" : String).data ∧
     (∀ e ∈ demoStore, '\n' ∉ (Prod.fst e).data) ∧
     (∀ e ∈ demoStore, ok? (processEntry zeroSig e) = true)) ∧
    (emittedLines (main zeroSig "p" (Except.ok demoStore)) =
      ("Generating JWTs using keys discovered in " ++ "p") :: "" ::
        demoStore.map (fun e => " - " ++ e.1 ++ ": " ++ tokenOf zeroSig e) ∧
    (emittedLines (main zeroSig "p" (Except.ok demoStore))).length =
      demoStore.length + 2 ∧
    (main zeroSig "p" (Except.ok demoStore)).exitOk = true) :=
  ⟨⟨by decide, by decide, by decide⟩,
   main_line_count zeroSig "p" demoStore (by decide) (by decide) (by decide)⟩

end Cfzt
